import Mathlib

/-!
Verification of the VTA (Variable Type Analysis) core described in the
repository specification: the flow-graph node taxonomy, the directed
graph with deduplicated edges, the type-propagation fixpoint, and the
call resolver that augments a baseline (CHA) call graph.

The concrete golden values (node string forms, graph shapes) follow
`go/callgraph/vta/graph_test.go`; the algorithmic components are
modelled from the specification because the implementation files
(`graph.go`, `propagation.go`, `vta.go`) are not part of the sources
available here.
-/

/- ### Go types (the fragment needed by the analysis) -/

mutual

/-- Modelled from the spec: the fragment of Go's static types that the
node taxonomy carries (`graph.go` and its `go/types` values are not in
the sources). A `named` type is a defined struct-like type with fields
and a method set; `iface` is an interface with a method list. -/
inductive GoType where
  | int : GoType
  | bool : GoType
  | ptr (elem : GoType) : GoType
  | mapT (key value : GoType) : GoType
  | slice (elem : GoType) : GoType
  | chanT (elem : GoType) : GoType
  | named (name : String) (fields : FieldList) (methods : List String) : GoType
  | iface (name : String) (methods : List String) : GoType
  | funcT (sig : String) : GoType
  deriving DecidableEq

/-- Field list of a named struct type: field name together with its type. -/
inductive FieldList where
  | nil : FieldList
  | cons (fname : String) (ftyp : GoType) (rest : FieldList) : FieldList
  deriving DecidableEq

end

/-- Lookup of the i-th field (name and type) of a field list. -/
def FieldList.get? : FieldList → Nat → Option (String × GoType)
  | .nil, _ => none
  | .cons n t _, 0 => some (n, t)
  | .cons _ _ rest, i + 1 => rest.get? i

/-- Rendering of a type, as `go/types` prints it (e.g. `*int`, `interface\x7b\x7d`). -/
def typeString : GoType → String
  | .int => "int"
  | .bool => "bool"
  | .ptr t => "*" ++ typeString t
  | .mapT k v => "map[" ++ typeString k ++ "]" ++ typeString v
  | .slice t => "[]" ++ typeString t
  | .chanT t => "chan " ++ typeString t
  | .named n _ _ => n
  | .iface n _ => if n = "" then "interface\x7b\x7d" else n
  | .funcT s => s

/-- Whether a type is an interface type. -/
def isIface : GoType → Bool
  | .iface _ _ => true
  | _ => false

/-- A concrete type is a non-interface type (glossary of the spec). -/
def isConcrete (t : GoType) : Bool := !isIface t

/-- Method set of a type: a named type's declared methods; a pointer
inherits the pointee's methods; other types have none. -/
def methodSet : GoType → List String
  | .named _ _ ms => ms
  | .ptr t => methodSet t
  | _ => []

/-- Whether concrete type `t` implements interface type `i` (method-set
inclusion); non-interface `i` imposes no constraint. -/
def implementsB (t i : GoType) : Bool :=
  match i with
  | .iface _ ms => ms.all (fun m => (methodSet t).contains m)
  | _ => true

/-- Field info of a struct type at an index, when it exists. -/
def fieldInfo (s : GoType) (i : Nat) : Option (String × GoType) :=
  match s with
  | .named _ fs _ => fs.get? i
  | _ => none

/-- Name of the i-th field of a struct type (the Go code indexes the
underlying `types.Struct` and would panic on a malformed node). -/
def fieldNameAt (s : GoType) (i : Nat) : String :=
  match fieldInfo s i with
  | some p => p.1
  | none => ""

/- ### Node taxonomy -/

/-- Identity of an SSA value (register/global): its name and static type. -/
structure VarId where
  name : String
  typ : GoType
  deriving DecidableEq

/-- Identity of a function: its name and signature type. -/
structure FuncId where
  name : String
  typ : GoType
  deriving DecidableEq

/-- Modelled from the spec: the closed set of flow-graph node variants
of `graph.go` (§3 of the spec; variant list and carried fields as in
`TestNodeInterface`). `localVar` models the Go variant named `local`
(`local` is a Lean keyword). -/
inductive node where
  | constant (typ : GoType)
  | pointer (typ : GoType)
  | mapKey (typ : GoType)
  | mapValue (typ : GoType)
  | sliceElem (typ : GoType)
  | channelElem (typ : GoType)
  | field (structType : GoType) (index : Nat)
  | global (val : VarId)
  | localVar (val : VarId)
  | indexedLocal (val : VarId) (typ : GoType) (index : Nat)
  | function (f : FuncId)
  | nestedPtrInterface (typ : GoType)
  | nestedPtrFunction (typ : GoType)
  | panicArg
  | recoverReturn
  deriving DecidableEq

/-- Modelled from the spec: `Type()` of each node variant — the static
type carried by the node; the two sentinels have no type (`nil` in Go,
`none` here); a `field` node's type is the type of the selected field. -/
def nodeType : node → Option GoType
  | .constant t => some t
  | .pointer t => some t
  | .mapKey t => some t
  | .mapValue t => some t
  | .sliceElem t => some t
  | .channelElem t => some t
  | .field s i => (fieldInfo s i).map Prod.snd
  | .global v => some v.typ
  | .localVar v => some v.typ
  | .indexedLocal _ t _ => some t
  | .function f => some f.typ
  | .nestedPtrInterface t => some t
  | .nestedPtrFunction t => some t
  | .panicArg => none
  | .recoverReturn => none

/-- Modelled from the spec: `String()` of each node variant, with the
golden forms of `TestNodeInterface` (e.g. `Field(testdata.X:a)`,
`Local(t0[0])`, `Panic`, `Recover`). -/
def nodeString : node → String
  | .constant t => "Constant(" ++ typeString t ++ ")"
  | .pointer t => "Pointer(" ++ typeString t ++ ")"
  | .mapKey t => "MapKey(" ++ typeString t ++ ")"
  | .mapValue t => "MapValue(" ++ typeString t ++ ")"
  | .sliceElem t => "Slice([]" ++ typeString t ++ ")"
  | .channelElem t => "Channel(chan " ++ typeString t ++ ")"
  | .field s i => "Field(" ++ typeString s ++ ":" ++ fieldNameAt s i ++ ")"
  | .global v => "Global(" ++ v.name ++ ")"
  | .localVar v => "Local(" ++ v.name ++ ")"
  | .indexedLocal v _ i => "Local(" ++ v.name ++ "[" ++ toString i ++ "])"
  | .function f => "Function(" ++ f.name ++ ")"
  | .nestedPtrInterface t => "PtrInterface(" ++ typeString t ++ ")"
  | .nestedPtrFunction t => "PtrFunction(" ++ typeString t ++ ")"
  | .panicArg => "Panic"
  | .recoverReturn => "Recover"

/-- Variant tag of a node, used by the hash. -/
def nodeTag : node → Nat
  | .constant _ => 0
  | .pointer _ => 1
  | .mapKey _ => 2
  | .mapValue _ => 3
  | .sliceElem _ => 4
  | .channelElem _ => 5
  | .field _ _ => 6
  | .global _ => 7
  | .localVar _ => 8
  | .indexedLocal _ _ _ => 9
  | .function _ => 10
  | .nestedPtrInterface _ => 11
  | .nestedPtrFunction _ => 12
  | .panicArg => 13
  | .recoverReturn => 14

/-- Hash of a node: a function of the variant tag and the carried
identity fields only (Go hashes nodes as comparable struct map keys). -/
def nodeHash (n : node) : Nat :=
  16 * (nodeString n).length + nodeTag n

/-- Well-formedness of a node: a `field` node must select an existing
field of a struct type (the Go code would panic otherwise, never
returning a value). -/
def wfNode : node → Bool
  | .field s i => (fieldInfo s i).isSome
  | _ => true

/- ### Graph -/

/-- Modelled from the spec: `vtaGraph` is a mapping from a node to its
set of successors (`map[node]map[node]bool` in Go), embedded as an
association list with list-valued successor sets kept duplicate-free
by `addEdge`. -/
abbrev vtaGraph : Type := List (node × List node)

/-- First entry for key `n`, mirroring Go map lookup `g[n]`. -/
def findSuccs : vtaGraph → node → Option (List node)
  | [], _ => none
  | p :: rest, n => if p.1 = n then some p.2 else findSuccs rest n

/-- Successor set of a node; the empty set when the node is not a key
(Go: indexing a map at a missing key yields the zero value). -/
def succs (g : vtaGraph) (n : node) : List node :=
  (findSuccs g n).getD []

/-- Replace the successor set recorded for key `x`. -/
def setSuccs (g : vtaGraph) (x : node) (s : List node) : vtaGraph :=
  g.map (fun p => if p.1 = x then (x, s) else p)

/-- Modelled from the spec: `addEdge(x, y)` inserts `y` into `x`'s
successor set, creating the set if absent; a duplicate insertion is a
no-op (Go: `g[x][y] = true` on a set represented as `map[node]bool`). -/
def addEdge (g : vtaGraph) (x y : node) : vtaGraph :=
  match findSuccs g x with
  | some s => if y ∈ s then g else setSuccs g x (s ++ [y])
  | none => g ++ [(x, [y])]

/-- Keys of the graph: the nodes with a recorded successor set. -/
def keys (g : vtaGraph) : List node := g.map Prod.fst

/-- A graph built from scratch by a sequence of edge insertions. -/
def buildGraph (ops : List (node × node)) : vtaGraph :=
  ops.foldl (fun g p => addEdge g p.1 p.2) []

example : nodeString (.sliceElem .int) = "Slice([]int)" := by decide
example : nodeString (.channelElem (.ptr .int)) = "Channel(chan *int)" := by decide
example : nodeString (.mapValue (.ptr .int)) = "MapValue(*int)" := by decide
example : nodeType (.field (.named "testdata.X" (.cons "a" .int (.cons "b" .int .nil)) []) 1) = some .int := by decide

/- ### Propagation engine -/

/-- Modelled from the spec: the element propagated by the engine — a
concrete type, together with the function identity when the value is a
function object (needed to resolve calls through function values). -/
structure propType where
  typ : GoType
  f : Option String
  deriving DecidableEq

/-- Whether a propagated element may enter node `n`: when `n`'s static
type is an interface, only elements whose type implements it pass
(the spec's interface-boundary filtering); all other nodes pass all. -/
def passes (pt : propType) (n : node) : Bool :=
  match nodeType n with
  | some ty => if isIface ty then implementsB pt.typ ty else true
  | none => true

/-- Predecessors of `n`: sources of the edges that end in `n`. -/
def preds (g : vtaGraph) (n : node) : List node :=
  (g.filter (fun p => decide (n ∈ p.2))).map Prod.fst

/-- Modelled from the spec: the type sets after `r` rounds of the
propagation fixpoint. Round 0 holds the seeds; each later round unions
the seeds at `n` with everything at `n`'s predecessors in the previous
round, filtered at an interface boundary (§4.4 of the spec). Sets are
lists read up to membership. -/
def typesRound (g : vtaGraph) (seed : node → List propType) : Nat → node → List propType
  | 0, n => seed n
  | r + 1, n =>
      seed n ++ ((preds g n).flatMap (fun m => typesRound g seed r m)).filter (fun pt => passes pt n)

/-- Modelled from the spec: the seed function — a `Constant`, concrete
`Global`, or allocation-site `Pointer` starts with its own static type
when that type is concrete; a `Function` node starts with its own
function object; interface-typed and all other nodes start empty. -/
def seedOf : node → List propType
  | .constant t => if isConcrete t then [⟨t, none⟩] else []
  | .global v => if isConcrete v.typ then [⟨v.typ, none⟩] else []
  | .pointer t => if isConcrete t then [⟨t, none⟩] else []
  | .function f => [⟨f.typ, some f.name⟩]
  | _ => []

/-- An unfiltered flow path in the graph from a source node to a
target node: each step follows an edge, and every node *entered* along
the path admits the propagated element under interface filtering. -/
inductive flowsTo (g : vtaGraph) (pt : propType) : node → node → Prop where
  | refl (n : node) : flowsTo g pt n n
  | step {m k : node} (n : node) (hpath : flowsTo g pt m k)
      (hedge : k ∈ preds g n) (hpass : passes pt n = true) : flowsTo g pt m n

/- ### Call resolver -/

/-- An edge of the call graph: caller function to callee function. -/
structure CGEdge where
  caller : String
  callee : String
  deriving DecidableEq

/-- A dynamic call site: the enclosing caller, the operand node whose
type set resolves the site, and the invoked method name (`none` for a
call through a function value). -/
structure dynSite where
  caller : String
  op : node
  method : Option String
  deriving DecidableEq

/-- Receiver name used to render a resolved method callee `(T).m`. -/
def typeName : GoType → String
  | .named n _ _ => n
  | t => typeString t

/-- Modelled from the spec: resolution of one dynamic call site from
the type set of its operand node — method-set lookup for an interface
method call; the recorded function identities for a call through a
function value (§4.5 of the spec). -/
def resolveSite (s : dynSite) (ts : List propType) : List CGEdge :=
  match s.method with
  | some m =>
      ts.filterMap (fun pt =>
        if (methodSet pt.typ).contains m then
          some ⟨s.caller, "(" ++ typeName pt.typ ++ ")." ++ m⟩
        else none)
  | none => ts.filterMap (fun pt => pt.f.map (fun fn => ⟨s.caller, fn⟩))

/-- Modelled from the spec: the call resolver output — the baseline
(CHA) call graph's edges, augmented with one edge per resolved callee
of every dynamic call site (§4.5: VTA augments, never removes). -/
def resolve (baseline : List CGEdge) (sites : List dynSite)
    (tys : node → List propType) : List CGEdge :=
  baseline ++ sites.flatMap (fun s => resolveSite s (tys s.op))

/- ### Graph lemmas -/

theorem findSuccs_append_of_none (g g2 : vtaGraph) (a : node)
    (h : findSuccs g a = none) : findSuccs (g ++ g2) a = findSuccs g2 a := by
  induction g with
  | nil => rfl
  | cons p rest ih =>
      by_cases hpa : p.1 = a
      · simp [findSuccs, hpa] at h
      · simp only [List.cons_append, findSuccs, if_neg hpa] at h ⊢
        exact ih h

theorem findSuccs_setSuccs_self (g : vtaGraph) (x : node) (s : List node) :
    findSuccs (setSuccs g x s) x = (findSuccs g x).map (fun _ => s) := by
  induction g with
  | nil => rfl
  | cons p rest ih =>
      by_cases hpx : p.1 = x
      · simp [setSuccs, findSuccs, hpx]
      · have hstep : setSuccs (p :: rest) x s = p :: setSuccs rest x s := by
          simp [setSuccs, hpx]
        rw [hstep]
        simp only [findSuccs, if_neg hpx]
        exact ih

theorem succs_of_findSuccs_none {g : vtaGraph} {a : node}
    (h : findSuccs g a = none) : succs g a = [] := by
  simp [succs, h]

theorem succs_addEdge_self (g : vtaGraph) (a y : node) :
    succs (addEdge g a y) a =
      if y ∈ succs g a then succs g a else succs g a ++ [y] := by
  cases hf : findSuccs g a with
  | none =>
      have h0 : succs g a = [] := succs_of_findSuccs_none hf
      rw [h0, if_neg (List.not_mem_nil y), List.nil_append]
      simp only [addEdge, hf]
      simp [succs, findSuccs_append_of_none g _ a hf, findSuccs]
  | some s =>
      have h0 : succs g a = s := by simp [succs, hf]
      rw [h0]
      simp only [addEdge, hf]
      by_cases hy : y ∈ s
      · rw [if_pos hy, if_pos hy]
        exact h0
      · rw [if_neg hy, if_neg hy]
        simp [succs, findSuccs_setSuccs_self, hf]

theorem mem_succs_addEdge_self (g : vtaGraph) (a y : node) :
    y ∈ succs (addEdge g a y) a := by
  rw [succs_addEdge_self]
  by_cases hy : y ∈ succs g a
  · simp [hy]
  · simp [hy]

theorem succs_foldl_addEdge (a : node) (ys : List node) (g : vtaGraph)
    (hnd : ys.Nodup) (hout : ∀ y ∈ ys, y ∉ succs g a) :
    succs (ys.foldl (fun g2 y => addEdge g2 a y) g) a = succs g a ++ ys := by
  induction ys generalizing g with
  | nil => simp
  | cons y ys ih =>
      simp only [List.foldl_cons]
      have hy : y ∉ succs g a := hout y (by simp)
      have h1 : succs (addEdge g a y) a = succs g a ++ [y] := by
        rw [succs_addEdge_self, if_neg hy]
      have hz : ∀ z ∈ ys, z ∉ succs (addEdge g a y) a := by
        intro z hz
        rw [h1, List.mem_append]
        rintro (h | h)
        · exact hout z (List.mem_cons_of_mem y hz) h
        · rw [List.mem_singleton] at h
          subst h
          exact (List.nodup_cons.1 hnd).1 hz
      rw [ih (addEdge g a y) hnd.of_cons hz, h1, List.append_assoc]
      rfl

theorem keys_setSuccs (g : vtaGraph) (x : node) (s : List node) :
    keys (setSuccs g x s) = keys g := by
  simp only [keys, setSuccs, List.map_map]
  apply List.map_congr_left
  intro p _
  by_cases hpx : p.1 = x
  · simp [Function.comp, hpx]
  · simp [Function.comp, hpx]

theorem mem_keys_addEdge (g : vtaGraph) (x y n : node)
    (h : n ∈ keys (addEdge g x y)) : n ∈ keys g ∨ n = x := by
  cases hf : findSuccs g x with
  | none =>
      simp only [addEdge, hf] at h
      simp only [keys, List.map_append, List.map_cons, List.map_nil,
        List.mem_append, List.mem_singleton] at h
      exact h
  | some s =>
      simp only [addEdge, hf] at h
      by_cases hy : y ∈ s
      · rw [if_pos hy] at h
        exact Or.inl h
      · rw [if_neg hy, keys_setSuccs] at h
        exact Or.inl h

theorem findSuccs_eq_none_of_not_mem_keys (g : vtaGraph) (n : node)
    (h : n ∉ keys g) : findSuccs g n = none := by
  induction g with
  | nil => rfl
  | cons p rest ih =>
      simp only [keys, List.map_cons, List.mem_cons] at h
      push_neg at h
      simp only [findSuccs, if_neg (Ne.symm h.1)]
      exact ih h.2

theorem mem_keys_findSuccs (g : vtaGraph) (m : node) (h : m ∈ keys g) :
    ∃ s, findSuccs g m = some s ∧ (m, s) ∈ g := by
  induction g with
  | nil => simp [keys] at h
  | cons p rest ih =>
      by_cases hpm : p.1 = m
      · refine ⟨p.2, by simp [findSuccs, hpm], ?_⟩
        subst hpm
        exact List.mem_cons_self _ _
      · simp only [keys, List.map_cons, List.mem_cons] at h
        rcases h with h | h
        · exact absurd h.symm hpm
        · obtain ⟨s, h1, h2⟩ := ih h
          exact ⟨s, by simp [findSuccs, hpm, h1], List.mem_cons_of_mem p h2⟩

/-- Invariant: every recorded successor set of the graph is nonempty. -/
def entriesNE (g : vtaGraph) : Prop := ∀ p ∈ g, p.2 ≠ []

theorem entriesNE_addEdge {g : vtaGraph} (x y : node) (h : entriesNE g) :
    entriesNE (addEdge g x y) := by
  cases hf : findSuccs g x with
  | none =>
      simp only [addEdge, hf]
      intro p hp
      rcases List.mem_append.1 hp with hp | hp
      · exact h p hp
      · rw [List.mem_singleton] at hp
        subst hp
        simp
  | some s =>
      simp only [addEdge, hf]
      by_cases hy : y ∈ s
      · rw [if_pos hy]
        exact h
      · rw [if_neg hy]
        intro p hp
        simp only [setSuccs, List.mem_map] at hp
        obtain ⟨q, hq, hpq⟩ := hp
        by_cases hqx : q.1 = x
        · rw [if_pos hqx] at hpq
          subst hpq
          simp
        · rw [if_neg hqx] at hpq
          subst hpq
          exact h q hq

theorem entriesNE_buildGraph (ops : List (node × node)) :
    entriesNE (buildGraph ops) := by
  suffices hgen : ∀ g : vtaGraph, entriesNE g →
      entriesNE (ops.foldl (fun g2 p => addEdge g2 p.1 p.2) g) from
    hgen [] (by intro p hp; simp at hp)
  induction ops with
  | nil => intro g hg; exact hg
  | cons p ops ih =>
      intro g hg
      exact ih _ (entriesNE_addEdge p.1 p.2 hg)

theorem keys_foldl_sources (ops : List (node × node)) (g : vtaGraph) (n : node)
    (hg : n ∉ keys g) (hops : n ∉ ops.map Prod.fst) :
    n ∉ keys (ops.foldl (fun g2 p => addEdge g2 p.1 p.2) g) := by
  induction ops generalizing g with
  | nil => exact hg
  | cons p ops ih =>
      simp only [List.map_cons, List.mem_cons] at hops
      push_neg at hops
      simp only [List.foldl_cons]
      refine ih (addEdge g p.1 p.2) ?_ hops.2
      intro hmem
      rcases mem_keys_addEdge g p.1 p.2 n hmem with h | h
      · exact hg h
      · exact hops.1 h

/- ### Concrete values of `graph_test.go` -/

/-- The map type `map[int]int` used by `TestVtaGraph`. -/
def tmap : GoType := .mapT .int .int

/-- Node `n1` of `TestVtaGraph`. -/
def n1 : node := .constant .int

/-- Node `n2` of `TestVtaGraph`. -/
def n2 : node := .pointer (.ptr .int)

/-- Node `n3` of `TestVtaGraph`. -/
def n3 : node := .mapKey tmap

/-- Node `n4` of `TestVtaGraph`. -/
def n4 : node := .mapValue tmap

/-- The struct `X` of `testdata/src/simple.go`: fields `a b int`. -/
def xStruct : GoType := .named "testdata.X" (.cons "a" .int (.cons "b" .int .nil)) []

/-- The register `t0 := *gl` of `testdata/src/simple.go`. -/
def t0Reg : VarId := ⟨"t0", .int⟩

/-- Claim C4: graph edge insertion is idempotent and deduplicating —
inserting the same edge twice leaves the successor set of the source
unchanged, and inserting k pairwise-distinct edges from one node
(whose set is created on first insertion) yields a successor set of
size exactly k. -/
theorem c4_addEdge_dedup (g : vtaGraph) (a b : node) (ys : List node)
    (hnd : ys.Nodup) (habs : findSuccs g a = none) :
    succs (addEdge (addEdge g a b) a b) a = succs (addEdge g a b) a
    ∧ (succs (ys.foldl (fun g2 y => addEdge g2 a y) g) a).length = ys.length := by
  constructor
  · rw [succs_addEdge_self (addEdge g a b) a b, if_pos (mem_succs_addEdge_self g a b)]
  · have hout : ∀ y ∈ ys, y ∉ succs g a := by
      intro y _
      rw [succs_of_findSuccs_none habs]
      exact List.not_mem_nil y
    rw [succs_foldl_addEdge a ys g hnd hout, succs_of_findSuccs_none habs,
      List.nil_append]

/-- Witness for C4 at the nodes of `TestVtaGraph`: two distinct edges
out of `n1` in the empty graph. -/
theorem c4_witness :
    succs (addEdge (addEdge [] n1 n3) n1 n3) n1 = succs (addEdge [] n1 n3) n1
    ∧ (succs ([n3, n4].foldl (fun g2 y => addEdge g2 n1 y) []) n1).length = 2 :=
  c4_addEdge_dedup [] n1 n3 [n3, n4] (by decide) rfl

/-- Claim C10: after any sequence of insertions starting from the
empty graph, only nodes with an outgoing edge are keys: a node that
occurs solely as an edge target is not a key, its successor query
yields the empty set, and every key's successor set is nonempty. -/
theorem c10_targets_not_keys (ops : List (node × node)) (n : node)
    (h : n ∉ ops.map Prod.fst) :
    n ∉ keys (buildGraph ops) ∧ succs (buildGraph ops) n = []
    ∧ ∀ m ∈ keys (buildGraph ops), succs (buildGraph ops) m ≠ [] := by
  have h1 : n ∉ keys (buildGraph ops) :=
    keys_foldl_sources ops [] n (by simp [keys]) h
  refine ⟨h1, succs_of_findSuccs_none (findSuccs_eq_none_of_not_mem_keys _ _ h1), ?_⟩
  intro m hm
  obtain ⟨s, hfind, hmem⟩ := mem_keys_findSuccs _ _ hm
  have hne := entriesNE_buildGraph ops (m, s) hmem
  simp only [succs, hfind, Option.getD_some]
  exact hne

/-- Witness for C10 at the edge sequence of `TestVtaGraph`: `n4` only
ever occurs as a target and is not a key. -/
theorem c10_witness :
    n4 ∉ keys (buildGraph [(n1, n3), (n2, n3), (n3, n4), (n2, n4), (n1, n3)])
    ∧ succs (buildGraph [(n1, n3), (n2, n3), (n3, n4), (n2, n4), (n1, n3)]) n4 = []
    ∧ ∀ m ∈ keys (buildGraph [(n1, n3), (n2, n3), (n3, n4), (n2, n4), (n1, n3)]),
        succs (buildGraph [(n1, n3), (n2, n3), (n3, n4), (n2, n4), (n1, n3)]) m ≠ [] :=
  c10_targets_not_keys [(n1, n3), (n2, n3), (n3, n4), (n2, n4), (n1, n3)] n4 (by decide)

/-- Claim C5: node identity depends only on the variant tag and the
carried fields — independently constructed equal-field nodes compare
equal (shown for the `field`, `indexedLocal` and `constant` variants)
and hash identically — and `String()` renders the golden forms of
`TestNodeInterface`. -/
theorem c5_node_identity :
    (∀ s1 i1 s2 i2, node.field s1 i1 = node.field s2 i2 ↔ s1 = s2 ∧ i1 = i2)
    ∧ (∀ v1 t1 i1 v2 t2 i2,
        node.indexedLocal v1 t1 i1 = node.indexedLocal v2 t2 i2
          ↔ v1 = v2 ∧ t1 = t2 ∧ i1 = i2)
    ∧ (∀ t1 t2, node.constant t1 = node.constant t2 ↔ t1 = t2)
    ∧ (∀ a b : node, a = b → nodeHash a = nodeHash b)
    ∧ nodeString (node.field xStruct 0) = "Field(testdata.X:a)"
    ∧ nodeString (node.indexedLocal t0Reg xStruct 0) = "Local(t0[0])"
    ∧ nodeString (node.constant .int) = "Constant(int)"
    ∧ nodeString node.panicArg = "Panic"
    ∧ nodeString node.recoverReturn = "Recover" := by
  refine ⟨?_, ?_, ?_, ?_, by decide, by decide, by decide, rfl, rfl⟩
  · intro s1 i1 s2 i2
    simp
  · intro v1 t1 i1 v2 t2 i2
    simp
  · intro t1 t2
    simp
  · intro a b h
    rw [h]

/-- Witness for C5: the hash congruence applied at a concrete node. -/
theorem c5_witness : nodeHash (node.constant .int) = nodeHash (node.constant .int) :=
  c5_node_identity.2.2.2.1 (node.constant .int) (node.constant .int) rfl

/-- Claim C6: `Type()` returns the "no type" marker exactly for the
two sentinel variants; every other (well-formed) variant has a type. -/
theorem c6_type_none_iff_sentinel (n : node) (h : wfNode n = true) :
    nodeType n = none ↔ (n = node.panicArg ∨ n = node.recoverReturn) := by
  cases n with
  | constant t => simp [nodeType]
  | pointer t => simp [nodeType]
  | mapKey t => simp [nodeType]
  | mapValue t => simp [nodeType]
  | sliceElem t => simp [nodeType]
  | channelElem t => simp [nodeType]
  | field s i =>
      simp only [wfNode, Option.isSome_iff_exists] at h
      obtain ⟨p, hp⟩ := h
      simp [nodeType, hp]
  | global v => simp [nodeType]
  | localVar v => simp [nodeType]
  | indexedLocal v t i => simp [nodeType]
  | function f => simp [nodeType]
  | nestedPtrInterface t => simp [nodeType]
  | nestedPtrFunction t => simp [nodeType]
  | panicArg => simp [nodeType]
  | recoverReturn => simp [nodeType]

/-- Witness for C6 at the `Field(testdata.X:a)` node. -/
theorem c6_witness :
    nodeType (node.field xStruct 0) = none
      ↔ (node.field xStruct 0 = node.panicArg ∨ node.field xStruct 0 = node.recoverReturn) :=
  c6_type_none_iff_sentinel (node.field xStruct 0) (by decide)

/-- Claim C1: the resolver only augments the baseline CHA call graph —
every baseline edge is in the output, and a dynamic call site with an
empty operand type set contributes no edges at all (so the baseline
edge for it is preserved untouched). -/
theorem c1_resolver_conservative (baseline : List CGEdge) (sites : List dynSite)
    (tys : node → List propType) (e : CGEdge) (he : e ∈ baseline) :
    e ∈ resolve baseline sites tys ∧ ∀ s : dynSite, resolveSite s [] = [] := by
  constructor
  · show e ∈ baseline ++ sites.flatMap (fun s => resolveSite s (tys s.op))
    exact List.mem_append_left _ he
  · intro s
    rcases s with ⟨c, op, m⟩
    cases m <;> rfl

/-- An example baseline edge used by the C1 witness. -/
def e0 : CGEdge := ⟨"f", "g"⟩

/-- Witness for C1: a baseline edge survives resolution with a site
whose operand's type set is empty. -/
theorem c1_witness :
    e0 ∈ resolve [e0] [⟨"f", node.panicArg, none⟩] (fun _ => [])
    ∧ ∀ s : dynSite, resolveSite s [] = [] :=
  c1_resolver_conservative [e0] [⟨"f", node.panicArg, none⟩] (fun _ => []) e0 (by decide)

/- ### Propagation lemmas -/

/-- Whether a node's static type is an interface type. -/
def isIfaceNode (n : node) : Bool :=
  match nodeType n with
  | some ty => isIface ty
  | none => false

theorem passes_of_not_iface (pt : propType) (n : node)
    (h : isIfaceNode n = false) : passes pt n = true := by
  cases hn : nodeType n with
  | none => simp [passes, hn]
  | some ty =>
      unfold isIfaceNode at h
      rw [hn] at h
      have h2 : isIface ty = false := h
      simp [passes, hn, h2]

theorem mem_typesRound_succ (g : vtaGraph) (seed : node → List propType) (r : Nat)
    (n : node) (x : propType) :
    x ∈ typesRound g seed (r + 1) n
      ↔ x ∈ seed n ∨ ((∃ m ∈ preds g n, x ∈ typesRound g seed r m) ∧ passes x n = true) := by
  simp [typesRound, List.mem_append, List.mem_filter, List.mem_flatMap]

/-- Claim C3: round-over-round monotonicity of the propagation — every
element of a node's type set after round `r` is still there after
round `r + 1`; sets only grow, which (with the finite type universe)
is what terminates the fixpoint loop. -/
theorem c3_types_monotone (g : vtaGraph) (seed : node → List propType) (r : Nat)
    (n : node) (x : propType) (hx : x ∈ typesRound g seed r n) :
    x ∈ typesRound g seed (r + 1) n := by
  induction r generalizing n with
  | zero =>
      rw [mem_typesRound_succ]
      exact Or.inl hx
  | succ r ih =>
      rw [mem_typesRound_succ] at hx ⊢
      rcases hx with h1 | ⟨⟨m, hm, hxm⟩, hpass⟩
      · exact Or.inl h1
      · exact Or.inr ⟨⟨m, hm, ih m hxm⟩, hpass⟩

/-- Seed used by propagation witnesses: one value at the `Panic` node. -/
def seedP : node → List propType :=
  fun n => if n = node.panicArg then [⟨.int, none⟩] else []

/-- Witness for C3 on a concrete one-node instance. -/
theorem c3_witness : propType.mk .int none ∈ typesRound [] seedP 1 node.panicArg :=
  c3_types_monotone [] seedP 0 node.panicArg ⟨.int, none⟩ (by decide)

/-- Claim C7: interface filtering — an element in a node's type set
always got there along a flow path every node of which admits it under
interface filtering (so a type that does not implement an interface
never crosses that interface-typed node and is absent from every node
reachable only through it); moreover a filtered-out element can sit at
the interface node itself only as its own seed. -/
theorem c7_interface_filtering (g : vtaGraph) (seed : node → List propType)
    (r : Nat) (n : node) (pt : propType) (h : pt ∈ typesRound g seed r n) :
    (∃ m, pt ∈ seed m ∧ flowsTo g pt m n)
    ∧ (passes pt n = false → pt ∈ seed n) := by
  induction r generalizing n with
  | zero => exact ⟨⟨n, h, flowsTo.refl n⟩, fun _ => h⟩
  | succ r ih =>
      rw [mem_typesRound_succ] at h
      rcases h with h1 | ⟨⟨k, hk, hpt⟩, hpass⟩
      · exact ⟨⟨n, h1, flowsTo.refl n⟩, fun _ => h1⟩
      · obtain ⟨⟨m, hseed, hflow⟩, _⟩ := ih k hpt
        exact ⟨⟨m, hseed, flowsTo.step n hflow hk hpass⟩,
          fun hf => absurd (hf.symm.trans hpass) Bool.false_ne_true⟩

/-- Witness for C7 on a concrete one-node instance. -/
theorem c7_witness :
    (∃ m, propType.mk .int none ∈ seedP m ∧ flowsTo [] ⟨.int, none⟩ m node.panicArg)
    ∧ (passes ⟨.int, none⟩ node.panicArg = false
        → propType.mk .int none ∈ seedP node.panicArg) :=
  c7_interface_filtering [] seedP 0 node.panicArg ⟨.int, none⟩ (by decide)

/- ### The three-node cycle of the spec's fixpoint-soundness property -/

/-- The flow graph consisting of the cycle a→b→c→a. -/
def cycleGraph (a b c : node) : vtaGraph := [(a, [b]), (b, [c]), (c, [a])]

/-- The seeding that places exactly one element at node `a`. -/
def singleSeed (a : node) (pt : propType) : node → List propType :=
  fun n => if n = a then [pt] else []

theorem preds_cycleGraph_a (a b c : node) (hab : a ≠ b) (hac : a ≠ c) :
    preds (cycleGraph a b c) a = [c] := by
  simp [preds, cycleGraph, List.filter_cons, hab, hac]

theorem preds_cycleGraph_b (a b c : node) (hab : a ≠ b) (hbc : b ≠ c) :
    preds (cycleGraph a b c) b = [a] := by
  simp [preds, cycleGraph, List.filter_cons, hbc, Ne.symm hab]

theorem preds_cycleGraph_c (a b c : node) (hac : a ≠ c) (hbc : b ≠ c) :
    preds (cycleGraph a b c) c = [b] := by
  simp [preds, cycleGraph, List.filter_cons, Ne.symm hbc, Ne.symm hac]

/-- Claim C2: for the flow graph consisting of the cycle a→b→c→a with
a concrete type `t` seeded (only) at `a`, from round 2 on — hence at
the fixpoint — the type set of each of a, b, c is exactly the
singleton containing `t`: the cycle neither loses the seeded type nor
introduces any other. -/
theorem c2_cycle_types (a b c : node) (t : GoType)
    (hab : a ≠ b) (hac : a ≠ c) (hbc : b ≠ c) (hconc : isConcrete t = true)
    (ha : isIfaceNode a = false) (hb : isIfaceNode b = false)
    (hc : isIfaceNode c = false) (r : Nat) (hr : 2 ≤ r) :
    (∀ x, x ∈ typesRound (cycleGraph a b c) (singleSeed a ⟨t, none⟩) r a ↔ x = ⟨t, none⟩)
    ∧ (∀ x, x ∈ typesRound (cycleGraph a b c) (singleSeed a ⟨t, none⟩) r b ↔ x = ⟨t, none⟩)
    ∧ (∀ x, x ∈ typesRound (cycleGraph a b c) (singleSeed a ⟨t, none⟩) r c ↔ x = ⟨t, none⟩) := by
  have hpa : ∀ x : propType, passes x a = true := fun x => passes_of_not_iface x a ha
  have hpb : ∀ x : propType, passes x b = true := fun x => passes_of_not_iface x b hb
  have hpc : ∀ x : propType, passes x c = true := fun x => passes_of_not_iface x c hc
  have hpra := preds_cycleGraph_a a b c hab hac
  have hprb := preds_cycleGraph_b a b c hab hbc
  have hprc := preds_cycleGraph_c a b c hac hbc
  have hsa : singleSeed a ⟨t, none⟩ a = [⟨t, none⟩] := by simp [singleSeed]
  have hsb : singleSeed a ⟨t, none⟩ b = [] := by simp [singleSeed, Ne.symm hab]
  have hsc : singleSeed a ⟨t, none⟩ c = [] := by simp [singleSeed, Ne.symm hac]
  have m0a : ∀ x, x ∈ typesRound (cycleGraph a b c) (singleSeed a ⟨t, none⟩) 0 a ↔ x = ⟨t, none⟩ := by
    intro x
    show x ∈ singleSeed a ⟨t, none⟩ a ↔ x = ⟨t, none⟩
    simp [hsa]
  have m0b : ∀ x, x ∈ typesRound (cycleGraph a b c) (singleSeed a ⟨t, none⟩) 0 b ↔ False := by
    intro x
    show x ∈ singleSeed a ⟨t, none⟩ b ↔ False
    simp [hsb]
  have m0c : ∀ x, x ∈ typesRound (cycleGraph a b c) (singleSeed a ⟨t, none⟩) 0 c ↔ False := by
    intro x
    show x ∈ singleSeed a ⟨t, none⟩ c ↔ False
    simp [hsc]
  have m1a : ∀ x, x ∈ typesRound (cycleGraph a b c) (singleSeed a ⟨t, none⟩) 1 a ↔ x = ⟨t, none⟩ := by
    intro x
    rw [show (1 : Nat) = 0 + 1 from rfl, mem_typesRound_succ]
    simp [hsa, hpra, hpa x, m0c x]
  have m1b : ∀ x, x ∈ typesRound (cycleGraph a b c) (singleSeed a ⟨t, none⟩) 1 b ↔ x = ⟨t, none⟩ := by
    intro x
    rw [show (1 : Nat) = 0 + 1 from rfl, mem_typesRound_succ]
    simp [hsb, hprb, hpb x, m0a x]
  have m1c : ∀ x, x ∈ typesRound (cycleGraph a b c) (singleSeed a ⟨t, none⟩) 1 c ↔ False := by
    intro x
    rw [show (1 : Nat) = 0 + 1 from rfl, mem_typesRound_succ]
    simp [hsc, hprc, m0b x]
  induction r, hr using Nat.le_induction with
  | base =>
      refine ⟨?_, ?_, ?_⟩ <;> intro x
      · rw [show (2 : Nat) = 1 + 1 from rfl, mem_typesRound_succ]
        simp [hsa, hpra, hpa x, m1c x]
      · rw [show (2 : Nat) = 1 + 1 from rfl, mem_typesRound_succ]
        simp [hsb, hprb, hpb x, m1a x]
      · rw [show (2 : Nat) = 1 + 1 from rfl, mem_typesRound_succ]
        simp [hsc, hprc, hpc x, m1b x]
  | succ r hr ih =>
      obtain ⟨iha, ihb, ihc⟩ := ih
      refine ⟨?_, ?_, ?_⟩ <;> intro x
      · rw [mem_typesRound_succ]
        simp [hsa, hpra, hpa x, ihc x]
      · rw [mem_typesRound_succ]
        simp [hsb, hprb, hpb x, iha x]
      · rw [mem_typesRound_succ]
        simp [hsc, hprc, hpc x, ihb x]

/-- The node `a` of the C2 witness cycle. -/
def aN : node := .localVar ⟨"a", .int⟩

/-- The node `b` of the C2 witness cycle. -/
def bN : node := .localVar ⟨"b", .int⟩

/-- The node `c` of the C2 witness cycle. -/
def cN : node := .localVar ⟨"c", .int⟩

/-- Witness for C2 on the concrete cycle aN→bN→cN→aN seeded with `int`. -/
theorem c2_witness :
    (∀ x, x ∈ typesRound (cycleGraph aN bN cN) (singleSeed aN ⟨.int, none⟩) 2 aN ↔ x = ⟨.int, none⟩)
    ∧ (∀ x, x ∈ typesRound (cycleGraph aN bN cN) (singleSeed aN ⟨.int, none⟩) 2 bN ↔ x = ⟨.int, none⟩)
    ∧ (∀ x, x ∈ typesRound (cycleGraph aN bN cN) (singleSeed aN ⟨.int, none⟩) 2 cN ↔ x = ⟨.int, none⟩) :=
  c2_cycle_types aN bN cN .int (by decide) (by decide) (by decide) (by decide)
    (by decide) (by decide) (by decide) 2 (by decide)

/- ### End-to-end scenarios of the spec (§8) -/

/-- The type `C` of the scenario program: `type C int` with method `f`. -/
def tC : GoType := .named "C" .nil ["f"]

/-- The interface `I` of the scenario program: `interface\x7b f() \x7d`. -/
def tI : GoType := .iface "P.I" ["f"]

/-- The signature `func()` shared by scenario functions. -/
def tFunc : GoType := .funcT "func()"

/-- The local `i` of function `g` (`var i I = C(0)`). -/
def nLocalI : node := .localVar ⟨"i", tI⟩

/-- The function node of the closure literal `f$1`. -/
def nFuncF1 : node := .function ⟨"f$1", tFunc⟩

/-- The function node of the named function `h`. -/
def nFuncH : node := .function ⟨"h", tFunc⟩

/-- The local `p` of function `f` (`p := func()\x7b\x7d; ...; p = h`). -/
def nLocalP : node := .localVar ⟨"p", tFunc⟩

/-- Modelled from the spec: the flow graph the builder emits for the
scenario program — `C(0)` flows into the interface local `i` of `g`,
and both the closure `f$1` and (after the reassignment) `h` flow into
the function-typed local `p` of `f`. -/
def gC8 : vtaGraph :=
  buildGraph [(.constant tC, nLocalI), (nFuncF1, nLocalP), (nFuncH, nLocalP)]

/-- The dynamic call sites of the scenario: `i.f()` inside `g`, and
the second `p()` (after the reassignment) inside `f`. -/
def sitesC8 : List dynSite := [⟨"g", nLocalI, some "f"⟩, ⟨"f", nLocalP, none⟩]

/-- The baseline call-graph edges of the scenario (the statically
resolvable calls of `TestStatic`, among them `f -> f$1` for the `p()`
immediately after the closure assignment). -/
def baselineC8 : List CGEdge :=
  [⟨"(*C).f", "(C).f"⟩, ⟨"f", "(C).f"⟩, ⟨"f", "f$1"⟩, ⟨"f", "g"⟩]

/-- The scenario's resolved call graph. -/
def resC8 : List CGEdge := resolve baselineC8 sitesC8 (typesRound gC8 seedOf 2)

/-- Claim C8: the scenario program yields the resolved edge
`g -> (C).f`; the `p()` right after `p := func()\x7b\x7d` resolves to the
closure (edge `f -> f$1`, statically, hence in the baseline and in the
output), and after the reassignment `p = h` the second `p()` resolves
to `h` by propagation. -/
theorem c8_scenario :
    CGEdge.mk "g" "(C).f" ∈ resC8
    ∧ CGEdge.mk "f" "f$1" ∈ resC8
    ∧ CGEdge.mk "f" "h" ∈ resC8 := by decide

/-- The instantiated type argument `A` of the generics scenario. -/
def tA : GoType := .named "A" .nil ["F"]

/-- The instantiated type argument `B` of the generics scenario. -/
def tB : GoType := .named "B" .nil ["F"]

/-- The parameter `x` of the instantiation `instantiated[A]` — its
node identity carries the instantiated type argument `A`. -/
def nXA : node := .localVar ⟨"x", tA⟩

/-- The parameter `x` of the instantiation `instantiated[B]`. -/
def nXB : node := .localVar ⟨"x", tB⟩

/-- Modelled from the spec: the flow graph of the generics scenario —
an `A` value flows into `instantiated[A]`'s own parameter node and a
`B` value into `instantiated[B]`'s; the two instantiations share no
nodes because node identity includes the instantiated type argument. -/
def gC9 : vtaGraph := buildGraph [(.constant tA, nXA), (.constant tB, nXB)]

/-- The per-instantiation dynamic call sites for `x.F()`. -/
def sitesC9 : List dynSite :=
  [⟨"instantiated[P.A]", nXA, some "F"⟩, ⟨"instantiated[P.B]", nXB, some "F"⟩]

/-- The generics scenario's resolved edges (no baseline, to exhibit
exactly what resolution adds). -/
def resC9 : List CGEdge := resolve [] sitesC9 (typesRound gC9 seedOf 2)

/-- Claim C9: the generics scenario resolves to exactly the two edges
`instantiated[P.A] -> (A).F` and `instantiated[P.B] -> (B).F`; neither
instantiation resolves to the other instantiation's method. -/
theorem c9_generics_scenario :
    resC9 = [⟨"instantiated[P.A]", "(A).F"⟩, ⟨"instantiated[P.B]", "(B).F"⟩]
    ∧ CGEdge.mk "instantiated[P.A]" "(B).F" ∉ resC9
    ∧ CGEdge.mk "instantiated[P.B]" "(A).F" ∉ resC9 := by decide
